import Mathlib

/-!
Verification of the file-based contact book (`kunal.py`) against its
specification.  The program is shallowly embedded: a Python `dict` of string
fields becomes an association list `Record`, the JSON / CSV layers are
modelled at the value level (the byte-level `json` / `csv` codecs of the
Python standard library are abstracted to the values they produce), and the
filesystem interaction of `_load` is modelled as explicit state passing over
the content of the store file and its `.bak` sibling.
-/

set_option autoImplicit false

/-- `DEFAULT_FIELDS` of `kunal.py`: the five known record fields, in order. -/
def DEFAULT_FIELDS : List String := ["id", "name", "phone", "email", "notes"]

/-- The four mutable fields: `DEFAULT_FIELDS` minus `"id"`. -/
def MUTABLE_FIELDS : List String := ["name", "phone", "email", "notes"]

/-- A contact record: a Python `dict` of string keys and string values,
modelled as an association list in insertion order (keys distinct in every
dict the program builds). -/
def Record : Type := List (String × String)

instance : DecidableEq Record := by
  unfold Record
  infer_instance

/-- `d.get(k)` on a Python dict: value of the first matching key, if any. -/
def getVal : Record → String → Option String
  | [], _ => none
  | (k', v) :: r, k => if k' = k then some v else getVal r k

/-- `d.get(k, dflt)` on a Python dict. -/
def getValD (r : Record) (k dflt : String) : String :=
  (getVal r k).getD dflt

/-- `d[k] = v` on a Python dict: overwrite in place (keeping the key's
position) or append a fresh key at the end. -/
def setField : Record → String → String → Record
  | [], k, v => [(k, v)]
  | (k', v') :: r, k, v =>
    if k' = k then (k, v) :: r else (k', v') :: setField r k v

/-- The keys of a record, in order. -/
def recKeys (r : Record) : List String :=
  r.map Prod.fst

/-- `s.strip()` on Python text: drop leading and trailing whitespace.
Implemented structurally over the character list so that the kernel can
evaluate it on concrete inputs. -/
def strip (s : String) : String :=
  ⟨((s.toList.dropWhile Char.isWhitespace).reverse.dropWhile
      Char.isWhitespace).reverse⟩

/-- Lower-casing, character by character (`str.lower()` restricted to the
ASCII range of `Char.toLower`). -/
def lowerStr (s : String) : String :=
  ⟨s.toList.map Char.toLower⟩

/-! ### Path model (`pathlib.PurePosixPath` semantics)

`_detect_filetype` and the backup path of `_load` depend only on
`Path.suffix` and `Path.with_suffix`, which in turn depend only on the last
path component.  We model POSIX paths as strings. -/

/-- The components of a path string, with empty segments and `.` segments
dropped, as `pathlib` does when parsing. -/
def pathSegs (p : List Char) : List (List Char) :=
  (p.splitOn '/').filter (fun s => s ≠ [] ∧ s ≠ ['.'])

/-- `Path(p).name`: the final path component (empty for the root or the
empty path). -/
def pathName (p : List Char) : List Char :=
  (pathSegs p).getLast?.getD []

/-- The index of the last `'.'` in a name, if any. -/
def lastDotIdx : List Char → Option Nat
  | [] => none
  | c :: cs =>
    match lastDotIdx cs with
    | some j => some (j + 1)
    | none => if c = '.' then some 0 else none

/-- `PurePath.suffix` on a name: the part from the last dot on, provided
that dot is neither the first nor the last character of the name. -/
def nameSuffix (name : List Char) : List Char :=
  match lastDotIdx name with
  | some i => if 0 < i ∧ i < name.length - 1 then name.drop i else []
  | none => []

/-- `Path(p).suffix` for a POSIX path string `p`. -/
def pySuffix (p : String) : String :=
  ⟨nameSuffix (pathName p.toList)⟩

/-- `ContactBook._detect_filetype` (kunal.py:31-38): lower-case the suffix,
return `"json"` for `".json"`, `"csv"` for `".csv"`, and default to
`"json"` otherwise. -/
def detect_filetype (p : String) : String :=
  let suffix := lowerStr (pySuffix p)
  if suffix = ".json" then "json"
  else if suffix = ".csv" then "csv"
  else "json"

/-! ### CSV layer (`csv.DictReader` / `csv.DictWriter` at the row level)

A CSV file is modelled as its list of rows (each a list of cell strings);
the first row is the header.  The comma/quoting byte encoding of the `csv`
module is abstracted away (its writer and reader are inverse on cell
strings). -/

/-- Index of the last occurrence of `k` in a header (on duplicate header
names, `DictReader` keeps the value of the last column). -/
def lastIdxOf : List String → String → Option Nat
  | [], _ => none
  | a :: as, k =>
    match lastIdxOf as k with
    | some j => some (j + 1)
    | none => if a = k then some 0 else none

/-- The value a `DictReader` row dict holds for key `k`, where `none`
stands for both an absent key and the `None` filled in for a short row. -/
def rowVal (header row : List String) (k : String) : Option String :=
  match lastIdxOf header k with
  | none => none
  | some i => row.get? i

/-- kunal.py:68: `{k: (row.get(k, "") or "") for k in DEFAULT_FIELDS}`. -/
def normalizeRow (header row : List String) : Record :=
  DEFAULT_FIELDS.map (fun k => (k, (rowVal header row k).getD ""))

/-- kunal.py:66: the row is kept iff `row.get("id")` is truthy, i.e. the
`id` cell is present and non-empty. -/
def keepRow (header row : List String) : Bool :=
  (rowVal header row "id").getD "" != ""

/-- The CSV branch of `ContactBook._load` (kunal.py:61-69): iterate the
data rows, skip rows without a truthy `id`, normalize the rest. -/
def csvLoadRows (header : List String) : List (List String) → List Record
  | [] => []
  | row :: rest =>
    if (rowVal header row "id").getD "" = "" then csvLoadRows header rest
    else normalizeRow header row :: csvLoadRows header rest

/-- Loading a whole CSV file: an empty file has no header and yields no
records; otherwise the first row is the header. -/
def csvLoadFile : List (List String) → List Record
  | [] => []
  | header :: rows => csvLoadRows header rows

/-- The row written for one record by the CSV branch of `_save`
(kunal.py:93-94): `{k: c.get(k, "") for k in DEFAULT_FIELDS}` in field
order. -/
def rowOf (c : Record) : List String :=
  DEFAULT_FIELDS.map (fun k => getValD c k "")

/-- The CSV branch of `ContactBook._save` (kunal.py:89-94): header row
followed by one normalized row per record, in collection order. -/
def csvDump (contacts : List Record) : List (List String) :=
  DEFAULT_FIELDS :: contacts.map rowOf

/-! ### JSON layer and the recovering loader

A JSON file's content is modelled by what `json.load` makes of it: either
a decode failure, or a parsed value which is or is not a list.  `json.dump`
with `indent=2, ensure_ascii=False` writes the in-memory list of dicts
verbatim (pretty-printing and non-ASCII text are below the level of this
model). -/

/-- A parsed JSON value, as far as `_load` inspects it: a list of objects,
or anything else. -/
inductive JsonVal
  | arr (elems : List Record)
  | other
deriving DecidableEq

/-- The content of a JSON store file: text that fails `json.load`
(`invalid`), or a parsed value. -/
inductive JsonDoc
  | invalid
  | val (v : JsonVal)
deriving DecidableEq

/-- The JSON branch of `ContactBook._save` (kunal.py:86-87):
`json.dump(self.contacts, f, indent=2, ensure_ascii=False)` serializes the
record dicts verbatim. -/
def jsonDump (contacts : List Record) : JsonDoc :=
  .val (.arr contacts)

/-- The objects of a serialized JSON array document. -/
def docObjects : JsonDoc → List Record
  | .val (.arr l) => l
  | _ => []

/-- kunal.py:53-60: the parse step of the JSON load branch.  `none` covers
both failure modes: `json.JSONDecodeError` (→ `StorageError` "JSON decode
error") and a root that is not a list (→ `StorageError` "JSON root is not
a list."). -/
def jsonParse : JsonDoc → Option (List Record)
  | .val (.arr l) => some l
  | _ => none

/-- The filesystem state `_load` touches: the content at `self.path` and
at the backup path, `none` meaning the file does not exist. -/
structure JsonFS where
  main : Option JsonDoc
  bak : Option JsonDoc
deriving DecidableEq

/-- `ContactBook._load` for a JSON store (kunal.py:40-81), as a function of
the filesystem state.  `renameOk` models whether `Path.rename` succeeds
(on Windows it fails when the backup already exists).  Returns the loaded
contacts and the new filesystem state:
* missing file → create an empty store (`self._save()` after best-effort
  `mkdir`);
* parse success → the array elements become the contacts verbatim;
* parse failure (`StorageError` caught) → rename the file to the backup
  (overwriting any prior backup) when the rename succeeds, otherwise keep
  going with no backup; reset the contacts to empty and persist a fresh
  empty store. -/
def load_json (fs : JsonFS) (renameOk : Bool) : List Record × JsonFS :=
  match fs.main with
  | none => ([], { fs with main := some (jsonDump []) })
  | some d =>
    match jsonParse d with
    | some l => (l, fs)
    | none =>
      let fs1 : JsonFS :=
        if renameOk then { main := none, bak := some d } else fs
      ([], { fs1 with main := some (jsonDump []) })

/-- `PurePath.with_suffix` at the level of the file name: strip the current
suffix and append the new one. -/
def withSuffixName (name newSuf : List Char) : List Char :=
  name.take (name.length - (nameSuffix name).length) ++ newSuf

/-- The backup name computed by kunal.py:71:
`self.path.with_suffix(self.path.suffix + ".bak")`. -/
def bakName (name : List Char) : List Char :=
  withSuffixName name (nameSuffix name ++ ['.', 'b', 'a', 'k'])

/-! ### The record operations of `ContactBook` -/

deriving instance DecidableEq for Except

/-- The `KeyError` raised by `c['id']` on a dict without an `"id"` key. -/
inductive PyEx
  | keyError
deriving DecidableEq

/-- The format tag computed once in `__init__`. -/
inductive Filetype
  | json
  | csv
deriving DecidableEq

/-- The content of the store file, whichever format it is in. -/
inductive StoreContent
  | jsonC (d : JsonDoc)
  | csvC (rows : List (List String))
deriving DecidableEq

/-- `ContactBook._save` (kunal.py:83-96): overwrite the file with the
serialization of the full collection in the book's format. -/
def saveContent : Filetype → List Record → StoreContent
  | .json, cs => .jsonC (jsonDump cs)
  | .csv, cs => .csvC (csvDump cs)

/-- The in-memory state of a `ContactBook` together with its store file. -/
structure Book where
  ft : Filetype
  contacts : List Record
  file : StoreContent
deriving DecidableEq

/-- `ContactBook.find_by_id` (kunal.py:124-128): linear scan comparing
`c['id'] == id_`; the subscript raises `KeyError` on a record without an
`"id"` key. -/
def find_by_id : List Record → String → Except PyEx (Option Record)
  | [], _ => .ok none
  | c :: cs, i =>
    match getVal c "id" with
    | none => .error .keyError
    | some v => if v = i then .ok (some c) else find_by_id cs i

/-- One iteration of the update loop of kunal.py:163-170 for key `k`:
skip `"id"`; skip keys absent from `fields` (or mapped to `None`);
otherwise strip the value and assign it only if it differs from the
current value, latching the `updated` flag. -/
def applyLoop (f : String → Option String) :
    List String → Record → Bool → Record × Bool
  | [], c, flag => (c, flag)
  | k :: ks, c, flag =>
    if k = "id" then applyLoop f ks c flag
    else
      match f k with
      | none => applyLoop f ks c flag
      | some raw =>
        let newval := strip raw
        if getValD c k "" ≠ newval then
          applyLoop f ks (setField c k newval) true
        else applyLoop f ks c flag

/-- The whole field-update loop of `ContactBook.update` applied to one
contact dict: iterate `DEFAULT_FIELDS`, return the mutated dict and the
`updated` flag. -/
def applyFields (c : Record) (f : String → Option String) : Record × Bool :=
  applyLoop f DEFAULT_FIELDS c false

/-- Whether the loop would assign field `k`: `fields[k]` supplied non-`None`
and its stripped value differs from the record's current value. -/
def fieldChanged (c : Record) (f : String → Option String) (k : String) :
    Bool :=
  match f k with
  | none => false
  | some raw => strip raw != getValD c k ""

/-- `ContactBook.update` (kunal.py:157-176) on the contacts list: find the
first record with the given id (raising `KeyError` like `find_by_id` on a
record without an `"id"` key), mutate it in place through the field loop,
and report whether anything changed.  An unknown id reports `false` and
touches nothing. -/
def update_contacts :
    List Record → String → (String → Option String) →
      Except PyEx (Bool × List Record)
  | [], _, _ => .ok (false, [])
  | c :: cs, i, f =>
    match getVal c "id" with
    | none => .error .keyError
    | some v =>
      if v = i then
        let p := applyFields c f
        .ok (p.2, p.1 :: cs)
      else (update_contacts cs i f).map (fun q => (q.1, c :: q.2))

/-- The list comprehension of kunal.py:183:
`[c for c in self.contacts if c['id'] != id_]`; the subscript raises
`KeyError` on a record without an `"id"` key. -/
def filterNotId : List Record → String → Except PyEx (List Record)
  | [], _ => .ok []
  | c :: cs, i =>
    match getVal c "id" with
    | none => .error .keyError
    | some v =>
      (filterNotId cs i).map (fun rest => if v = i then rest else c :: rest)

/-- `ContactBook.delete` (kunal.py:178-186) on the contacts list: `false`
and no change for an unknown id; otherwise drop every record whose id
matches and report `true`. -/
def delete_contacts (contacts : List Record) (i : String) :
    Except PyEx (Bool × List Record) :=
  match find_by_id contacts i with
  | .error e => .error e
  | .ok none => .ok (false, contacts)
  | .ok (some _) => (filterNotId contacts i).map (fun cs => (true, cs))

/-- `ContactBook.add_contact` (kunal.py:98-109): build the new record with
a generated id (the `uuid.uuid4()` token is a parameter here) and stripped
fields, append it, and persist. -/
def Book.add_contact (b : Book) (newId name phone email notes : String) :
    Record × Book :=
  let r : Record :=
    [("id", newId), ("name", strip name), ("phone", strip phone),
     ("email", strip email), ("notes", strip notes)]
  let cs := b.contacts ++ [r]
  (r, { b with contacts := cs, file := saveContent b.ft cs })

/-- `ContactBook.update` at the book level: persist the collection exactly
when the loop reports a change. -/
def Book.update (b : Book) (i : String) (f : String → Option String) :
    Except PyEx (Bool × Book) :=
  (update_contacts b.contacts i f).map fun q =>
    (q.1,
      if q.1 then
        { b with contacts := q.2, file := saveContent b.ft q.2 }
      else { b with contacts := q.2 })

/-- `ContactBook.delete` at the book level: persist exactly when a record
was removed. -/
def Book.delete (b : Book) (i : String) : Except PyEx (Bool × Book) :=
  (delete_contacts b.contacts i).map fun q =>
    (q.1,
      if q.1 then
        { b with contacts := q.2, file := saveContent b.ft q.2 }
      else { b with contacts := q.2 })

/-- Field-for-field equality of two records over the five known fields,
reading a missing field as the empty string. -/
def fieldEq (a b : Record) : Prop :=
  ∀ k ∈ DEFAULT_FIELDS, getValD a k "" = getValD b k ""

/-- The loop of `csvLoadRows` is a filter of the truthy-`id` rows followed
by normalization. -/
theorem csvLoadRows_eq_filter_map (header : List String)
    (rows : List (List String)) :
    csvLoadRows header rows =
      (rows.filter (keepRow header)).map (normalizeRow header) := by
  induction rows with
  | nil => rfl
  | cons row rest ih =>
    by_cases h : (rowVal header row "id").getD "" = ""
    · have hk : keepRow header row = false := by
        simp [keepRow, h]
      simp [csvLoadRows, h, List.filter, hk, ih]
    · have hk : keepRow header row = true := by
        simp [keepRow, h]
      simp [csvLoadRows, h, List.filter, hk, ih]

/-- A normalized row has exactly the five known keys, in order. -/
theorem recKeys_normalizeRow (header row : List String) :
    recKeys (normalizeRow header row) = DEFAULT_FIELDS := by
  simp [recKeys, normalizeRow, DEFAULT_FIELDS]

/-- Looking up any of the five known keys in a normalized row yields the
row's cell for that column, with `""` substituted when the column is
missing. -/
theorem getVal_normalizeRow (header row : List String) (k : String)
    (hk : k ∈ DEFAULT_FIELDS) :
    getVal (normalizeRow header row) k =
      some ((rowVal header row k).getD "") := by
  simp only [DEFAULT_FIELDS, List.mem_cons, List.mem_singleton,
    List.not_mem_nil, or_false] at hk
  rcases hk with rfl | rfl | rfl | rfl | rfl <;> simp [normalizeRow,
    DEFAULT_FIELDS, getVal]

/-- Index of the first record whose id matches (the record `update`
mutates); equals the collection length when there is no match. -/
def idxOfId (contacts : List Record) (i : String) : Nat :=
  contacts.findIdx (fun c => getVal c "id" == some i)

/-- A small well-formed collection used to instantiate theorems. -/
def sampleContacts : List Record :=
  [[("id", "1"), ("name", "a"), ("phone", ""), ("email", ""),
    ("notes", "")],
   [("id", "2"), ("name", "b"), ("phone", ""), ("email", ""),
    ("notes", "")]]

/-- A book over `sampleContacts` whose file mirrors the collection. -/
def sampleBook : Book :=
  { ft := Filetype.json, contacts := sampleContacts,
    file := saveContent Filetype.json sampleContacts }

/-- The backup path of kunal.py:71 appends `".bak"` to the file name:
stripping the suffix and re-appending `suffix + ".bak"` is appending
`".bak"`. -/
theorem bakName_eq (nm : List Char) : bakName nm = nm ++ ['.', 'b', 'a', 'k'] := by
  unfold bakName withSuffixName nameSuffix
  cases h : lastDotIdx nm with
  | none => simp
  | some i =>
    dsimp only
    split_ifs with hc
    · have hi : i ≤ nm.length :=
        le_of_lt (lt_of_lt_of_le hc.2 (Nat.sub_le _ _))
      rw [List.length_drop, Nat.sub_sub_self hi, ← List.append_assoc,
        List.take_append_drop]
    · simp

/-- Assigning one key of a dict leaves the other keys' lookups alone. -/
theorem getVal_setField_ne (r : Record) (k k' v : String) (h : k ≠ k') :
    getVal (setField r k v) k' = getVal r k' := by
  induction r with
  | nil => simp [setField, getVal, h]
  | cons p rest ih =>
    obtain ⟨pk, pv⟩ := p
    by_cases hp : pk = k
    · subst hp
      simp [setField, getVal, h]
    · simp [setField, hp, getVal, ih]

/-- The `updated` flag of the update loop, once set, stays set. -/
theorem applyLoop_flag_true (f : String → Option String) (ks : List String)
    (c : Record) : (applyLoop f ks c true).2 = true := by
  induction ks generalizing c with
  | nil => rfl
  | cons k ks ih =>
    unfold applyLoop
    split_ifs with h1
    · exact ih c
    · cases f k with
      | none => exact ih c
      | some raw =>
        dsimp only
        split_ifs with h2
        · exact ih _
        · exact ih c

/-- If the update loop reports no change, it left the dict alone (and the
flag was already clear). -/
theorem applyLoop_noChange (f : String → Option String) (ks : List String)
    (c : Record) (flag : Bool) (h : (applyLoop f ks c flag).2 = false) :
    (applyLoop f ks c flag).1 = c ∧ flag = false := by
  induction ks generalizing c with
  | nil => exact ⟨rfl, h⟩
  | cons k ks ih =>
    unfold applyLoop at h ⊢
    split_ifs at h ⊢ with h1
    · exact ih c h
    · cases hf : f k with
      | none =>
        rw [hf] at h
        exact ih c h
      | some raw =>
        rw [hf] at h
        dsimp only at h ⊢
        split_ifs at h ⊢ with h2
        · rw [applyLoop_flag_true] at h
          exact absurd h (by simp)
        · exact ih c h

/-- The update loop never touches the `"id"` key of the dict. -/
theorem applyLoop_getVal_id (f : String → Option String) (ks : List String)
    (c : Record) (flag : Bool) :
    getVal (applyLoop f ks c flag).1 "id" = getVal c "id" := by
  induction ks generalizing c flag with
  | nil => rfl
  | cons k ks ih =>
    unfold applyLoop
    split_ifs with h1
    · exact ih c flag
    · cases f k with
      | none => exact ih c flag
      | some raw =>
        dsimp only
        split_ifs with h2
        · rw [ih _ true, getVal_setField_ne _ _ _ _ h1]
        · exact ih c flag

/-- The flag computed by the update loop is the disjunction, over the keys
it visits (minus `"id"`), of the per-key change tests against the original
dict. -/
theorem applyLoop_snd (f : String → Option String) (ks : List String)
    (c c' : Record) (flag : Bool) (hnd : ks.Nodup)
    (hagree : ∀ k ∈ ks, getValD c' k "" = getValD c k "") :
    (applyLoop f ks c' flag).2 =
      (flag || ks.any (fun k => !(k == "id") && fieldChanged c f k)) := by
  induction ks generalizing c' flag with
  | nil => simp [applyLoop]
  | cons k ks ih =>
    have hndk : k ∉ ks := (List.nodup_cons.mp hnd).1
    have hndr : ks.Nodup := (List.nodup_cons.mp hnd).2
    have hagr : ∀ k' ∈ ks, getValD c' k' "" = getValD c k' "" :=
      fun k' hk' => hagree k' (List.mem_cons_of_mem _ hk')
    unfold applyLoop
    split_ifs with h1
    · rw [ih c' flag hndr hagr]
      simp [h1]
    · cases hf : f k with
      | none =>
        rw [ih c' flag hndr hagr]
        have : fieldChanged c f k = false := by
          simp [fieldChanged, hf]
        simp [this]
      | some raw =>
        dsimp only
        have hcur : getValD c' k "" = getValD c k "" :=
          hagree k (List.mem_cons_self _ _)
        split_ifs with h2
        · have hagr2 : ∀ k' ∈ ks, getValD (setField c' k (strip raw)) k' ""
              = getValD c k' "" := by
            intro k' hk'
            have hkk : k ≠ k' := fun he => hndk (he ▸ hk')
            rw [getValD, getVal_setField_ne _ _ _ _ hkk, ← getValD,
              hagr k' hk']
          have hfc : fieldChanged c f k = true := by
            simp only [fieldChanged, hf, bne_iff_ne, ne_eq]
            rw [← hcur]
            exact fun he => h2 he.symm
          rw [ih _ true hndr hagr2]
          simp [hfc, h1]
        · have hfc : fieldChanged c f k = false := by
            simp only [fieldChanged, hf, bne_eq_false_iff_eq]
            rw [← hcur]
            exact (not_not.mp h2).symm
          rw [ih c' flag hndr hagr]
          simp [hfc]

/-- The update loop over the five fields reports a change exactly when one
of the four mutable fields would be assigned. -/
theorem applyFields_snd (c : Record) (f : String → Option String) :
    (applyFields c f).2 = MUTABLE_FIELDS.any (fieldChanged c f) := by
  rw [applyFields, applyLoop_snd f DEFAULT_FIELDS c c false (by decide)
    (fun _ _ => rfl)]
  simp [DEFAULT_FIELDS, MUTABLE_FIELDS]

/-- With every record carrying an `"id"` key, `find_by_id` cannot raise
and returns the first structural match on `id`, or `none`. -/
theorem find_by_id_eq_find? (contacts : List Record) (i : String)
    (hids : ∀ r ∈ contacts, (getVal r "id").isSome) :
    find_by_id contacts i =
      .ok (contacts.find? (fun c => getVal c "id" == some i)) := by
  induction contacts with
  | nil => rfl
  | cons c cs ih =>
    have hc := hids c (List.mem_cons_self _ _)
    cases hv : getVal c "id" with
    | none =>
      rw [hv] at hc
      simp at hc
    | some v =>
      have hcs : ∀ r ∈ cs, (getVal r "id").isSome :=
        fun r hr => hids r (List.mem_cons_of_mem _ hr)
      by_cases hvi : v = i
      · subst hvi
        rw [List.find?_cons_of_pos _ (by simp [hv])]
        simp [find_by_id, hv]
      · rw [List.find?_cons_of_neg _ (by simp [hv, hvi])]
        simp [find_by_id, hv, hvi, ih hcs]

/-- With every record carrying an `"id"` key, the deletion comprehension
cannot raise and keeps exactly the records whose id differs. -/
theorem filterNotId_eq_filter (contacts : List Record) (i : String)
    (hids : ∀ r ∈ contacts, (getVal r "id").isSome) :
    filterNotId contacts i =
      .ok (contacts.filter (fun c => !(getVal c "id" == some i))) := by
  induction contacts with
  | nil => rfl
  | cons c cs ih =>
    have hc := hids c (List.mem_cons_self _ _)
    cases hv : getVal c "id" with
    | none =>
      rw [hv] at hc
      simp at hc
    | some v =>
      have hcs : ∀ r ∈ cs, (getVal r "id").isSome :=
        fun r hr => hids r (List.mem_cons_of_mem _ hr)
      rw [List.filter_cons]
      by_cases hvi : v = i
      · subst hvi
        simp [filterNotId, hv, ih hcs, Except.map]
      · simp [filterNotId, hv, hvi, ih hcs, Except.map]

/-- Dropping all matches equals dropping the first match when at most one
element matches. -/
theorem filter_not_eq_eraseP {α : Type} (p : α → Bool) (l : List α)
    (h : l.countP p ≤ 1) :
    l.filter (fun a => !(p a)) = l.eraseP p := by
  induction l with
  | nil => rfl
  | cons a l ih =>
    rw [List.filter_cons]
    by_cases hp : p a
    · rw [List.eraseP_cons_of_pos hp]
      rw [List.countP_cons_of_pos _ _ hp] at h
      have h0 : l.countP p = 0 := by omega
      have hall : ∀ b ∈ l, ¬ p b := List.countP_eq_zero.mp h0
      simp only [hp, Bool.not_true, Bool.false_eq_true, if_false]
      rw [List.filter_eq_self]
      intro b hb
      simp [hall b hb]
    · rw [List.eraseP_cons_of_neg (by simp [hp])]
      rw [List.countP_cons_of_neg _ _ (by simp [hp])] at h
      simp only [hp, Bool.not_false, if_true]
      rw [ih h]

/-- Uniqueness of the stored ids bounds the number of records matching a
given id by one. -/
theorem countP_id_le_one (contacts : List Record) (i : String)
    (hnd : (contacts.map (fun r => getVal r "id")).Nodup) :
    contacts.countP (fun c => getVal c "id" == some i) ≤ 1 := by
  induction contacts with
  | nil => simp
  | cons c cs ih =>
    rw [List.map_cons, List.nodup_cons] at hnd
    rw [List.countP_cons]
    by_cases hp : (getVal c "id" == some i) = true
    · have hci : getVal c "id" = some i := beq_iff_eq.mp hp
      have h0 : cs.countP (fun d => getVal d "id" == some i) = 0 := by
        rw [List.countP_eq_zero]
        intro d hd hdp
        have hdi : getVal d "id" = getVal c "id" := by
          rw [hci]
          exact beq_iff_eq.mp hdp
        exact hnd.1 (hdi ▸ List.mem_map_of_mem (fun r => getVal r "id") hd)
      rw [h0]
      simp [hp]
    · rw [Bool.not_eq_true] at hp
      rw [hp]
      have := ih hnd.2
      simp only [Bool.false_eq_true, if_false]
      omega

/-- `update` walks to the first record whose id matches, rewrites it
through the field loop, and leaves everything else in place. -/
theorem update_contacts_found (contacts : List Record) (i : String)
    (f : String → Option String) (c₀ : Record)
    (hids : ∀ r ∈ contacts, (getVal r "id").isSome)
    (hfind : contacts.find? (fun c => getVal c "id" == some i) = some c₀) :
    ∃ pre post, contacts = pre ++ c₀ :: post ∧
      update_contacts contacts i f =
        .ok ((applyFields c₀ f).2, pre ++ (applyFields c₀ f).1 :: post) := by
  induction contacts with
  | nil => simp at hfind
  | cons c cs ih =>
    have hc := hids c (List.mem_cons_self _ _)
    cases hv : getVal c "id" with
    | none =>
      rw [hv] at hc
      simp at hc
    | some v =>
      by_cases hvi : v = i
      · subst hvi
        have hcc : c₀ = c := by
          rw [List.find?_cons_of_pos _ (by simp [hv])] at hfind
          exact (Option.some_inj.mp hfind).symm
        subst hcc
        refine ⟨[], cs, rfl, ?_⟩
        simp [update_contacts, hv, applyFields]
      · rw [List.find?_cons_of_neg _ (by simp [hv, hvi])] at hfind
        obtain ⟨pre, post, heq, hupd⟩ :=
          ih (fun r hr => hids r (List.mem_cons_of_mem _ hr)) hfind
        refine ⟨c :: pre, post, by rw [heq]; rfl, ?_⟩
        simp [update_contacts, hv, hvi, hupd, Except.map]

/-- Reading any of the five known fields back from the CSV row written for
a record recovers the record's value for that field (with `""` for a
missing field). -/
theorem rowVal_dump (c : Record) (k : String) (hk : k ∈ DEFAULT_FIELDS) :
    rowVal DEFAULT_FIELDS (rowOf c) k = some (getValD c k "") := by
  simp only [DEFAULT_FIELDS, List.mem_cons, List.mem_singleton,
    List.not_mem_nil, or_false] at hk
  rcases hk with rfl | rfl | rfl | rfl | rfl <;> rfl

/-- Normalizing the CSV row written for a record gives a record that is
field-for-field equal to the original. -/
theorem fieldEq_normalizeRow_rowOf (c : Record) :
    fieldEq (normalizeRow DEFAULT_FIELDS (rowOf c)) c := by
  intro k hk
  unfold getValD
  rw [getVal_normalizeRow _ _ _ hk, rowVal_dump c k hk]
  rfl

/-- CSV round trip at the collection level: when every record has a
non-empty id, saving then loading is the identity up to field-for-field
equality. -/
theorem csv_roundtrip_forall (contacts : List Record) :
    (∀ c ∈ contacts, getValD c "id" "" ≠ "") →
    List.Forall₂ fieldEq (csvLoadFile (csvDump contacts)) contacts := by
  rw [csvDump]
  simp only [csvLoadFile]
  induction contacts with
  | nil =>
    intro _
    simp [csvLoadRows]
  | cons c cs ih =>
    intro h
    have hc := h c (List.mem_cons_self _ _)
    have hid : (rowVal DEFAULT_FIELDS (rowOf c) "id").getD ""
        = getValD c "id" "" := by
      rw [rowVal_dump c "id" (by decide)]
      rfl
    simp only [List.map_cons, csvLoadRows, hid]
    rw [if_neg hc]
    exact List.Forall₂.cons (fieldEq_normalizeRow_rowOf c)
      (ih (fun d hd => h d (List.mem_cons_of_mem _ hd)))

/-- Everything `update` guarantees about the shape of the collection when
it returns: same length, same ids in the same order, and every position
other than that of the first id match untouched. -/
theorem update_contacts_parts (contacts : List Record) (i : String)
    (f : String → Option String) (flag : Bool) (cs' : List Record)
    (h : update_contacts contacts i f = .ok (flag, cs')) :
    cs'.length = contacts.length ∧
    cs'.map (fun r => getVal r "id") =
      contacts.map (fun r => getVal r "id") ∧
    ∀ j, j ≠ idxOfId contacts i → cs'.get? j = contacts.get? j := by
  induction contacts generalizing flag cs' with
  | nil =>
    simp only [update_contacts, Except.ok.injEq, Prod.mk.injEq] at h
    obtain ⟨_, h2⟩ := h
    subst h2
    exact ⟨rfl, rfl, fun j _ => rfl⟩
  | cons c cs ih =>
    simp only [update_contacts] at h
    cases hv : getVal c "id" with
    | none =>
      rw [hv] at h
      exact absurd h (by simp)
    | some v =>
      rw [hv] at h
      dsimp only at h
      by_cases hvi : v = i
      · rw [if_pos hvi] at h
        simp only [Except.ok.injEq, Prod.mk.injEq] at h
        obtain ⟨_, h2⟩ := h
        subst h2
        have hidx : idxOfId (c :: cs) i = 0 := by
          simp [idxOfId, List.findIdx_cons, hv, hvi]
        refine ⟨by simp, ?_, ?_⟩
        · simp [applyFields, applyLoop_getVal_id]
        · intro j hj
          rw [hidx] at hj
          cases j with
          | zero => exact absurd rfl hj
          | succ j' => rfl
      · rw [if_neg hvi] at h
        cases hu : update_contacts cs i f with
        | error e =>
          rw [hu] at h
          simp [Except.map] at h
        | ok q =>
          rw [hu] at h
          simp only [Except.map, Except.ok.injEq, Prod.mk.injEq] at h
          obtain ⟨_, h2⟩ := h
          subst h2
          obtain ⟨ih1, ih2, ih3⟩ := ih q.1 q.2 hu
          have hpc : (getVal c "id" == some i) = false := by
            rw [hv]
            simpa using hvi
          have hidx : idxOfId (c :: cs) i = idxOfId cs i + 1 := by
            simp [idxOfId, List.findIdx_cons, hpc]
          refine ⟨by simp [ih1], by simp [ih2], ?_⟩
          intro j hj
          rw [hidx] at hj
          cases j with
          | zero => rfl
          | succ j' =>
            exact ih3 j' (fun he => hj (by rw [he]))

/-- A successful deletion comprehension yields a sublist of the
collection. -/
theorem filterNotId_sublist (contacts : List Record) (i : String)
    (cs' : List Record) (h : filterNotId contacts i = .ok cs') :
    cs'.Sublist contacts := by
  induction contacts generalizing cs' with
  | nil =>
    simp only [filterNotId, Except.ok.injEq] at h
    subst h
    exact List.Sublist.refl _
  | cons c cs ih =>
    simp only [filterNotId] at h
    cases hv : getVal c "id" with
    | none =>
      rw [hv] at h
      exact absurd h (by simp)
    | some v =>
      rw [hv] at h
      cases hr : filterNotId cs i with
      | error e =>
        rw [hr] at h
        simp [Except.map] at h
      | ok rest =>
        rw [hr] at h
        simp only [Except.map, Except.ok.injEq] at h
        subst h
        by_cases hvi : v = i
        · rw [if_pos hvi]
          exact (ih rest hr).cons _
        · rw [if_neg hvi]
          exact (ih rest hr).cons₂ _

/-- What `delete` returns at the book level determines what the list-level
deletion returned. -/
theorem book_delete_contacts (b : Book) (i : String) (flag : Bool)
    (bD : Book) (h : Book.delete b i = .ok (flag, bD)) :
    delete_contacts b.contacts i = .ok (flag, bD.contacts) := by
  unfold Book.delete at h
  cases hq : delete_contacts b.contacts i with
  | error e =>
    rw [hq] at h
    simp [Except.map] at h
  | ok q =>
    rw [hq] at h
    obtain ⟨qf, qcs⟩ := q
    simp only [Except.map, Except.ok.injEq, Prod.mk.injEq] at h
    obtain ⟨h1, h2⟩ := h
    subst h1
    rw [← h2]
    cases qf <;> rfl

/-- A successful delete yields a sublist of the collection. -/
theorem delete_contacts_sublist (contacts : List Record) (i : String)
    (flag : Bool) (cs' : List Record)
    (h : delete_contacts contacts i = .ok (flag, cs')) :
    cs'.Sublist contacts := by
  unfold delete_contacts at h
  cases hfind : find_by_id contacts i with
  | error e =>
    rw [hfind] at h
    exact absurd h (by simp)
  | ok o =>
    rw [hfind] at h
    cases o with
    | none =>
      simp only [Except.ok.injEq, Prod.mk.injEq] at h
      rw [← h.2]
    | some c =>
      cases hflt : filterNotId contacts i with
      | error e =>
        rw [hflt] at h
        simp [Except.map] at h
      | ok rest =>
        rw [hflt] at h
        simp only [Except.map, Except.ok.injEq, Prod.mk.injEq] at h
        rw [← h.2]
        exact filterNotId_sublist contacts i rest hflt

/-- C1 counterexample: the JSON save path does not normalize records to
the five known keys — kunal.py:87 dumps `self.contacts` verbatim (only the
CSV branch normalizes), so a record missing fields is written with only
its own keys and no empty-string substitution. -/
theorem json_save_not_normalized_cex :
    (docObjects (jsonDump [[("id", "1")]])).all
      (fun r => recKeys r == DEFAULT_FIELDS) = false := by
  decide

/-- C1 (amended): saving in JSON format writes the record objects
verbatim — each saved object carries exactly the keys of the in-memory
record, with no empty-string substitution — so the saved objects all have
exactly the five known keys precisely when the in-memory records all do. -/
theorem json_save_verbatim_keys (contacts : List Record)
    (h : contacts.all (fun r => recKeys r == DEFAULT_FIELDS) = true) :
    docObjects (jsonDump contacts) = contacts ∧
    (docObjects (jsonDump contacts)).all
      (fun r => recKeys r == DEFAULT_FIELDS) = true :=
  ⟨rfl, h⟩

theorem json_save_verbatim_keys_witness :
    docObjects (jsonDump [[("id", "7"), ("name", "Ann"), ("phone", ""),
        ("email", ""), ("notes", "")]]) =
      [[("id", "7"), ("name", "Ann"), ("phone", ""), ("email", ""),
        ("notes", "")]] ∧
    (docObjects (jsonDump [[("id", "7"), ("name", "Ann"), ("phone", ""),
        ("email", ""), ("notes", "")]])).all
      (fun r => recKeys r == DEFAULT_FIELDS) = true :=
  json_save_verbatim_keys _ (by decide)

/-- C2: loading an existing JSON store whose content fails to parse
(invalid JSON, or a root that is not an array) does not propagate the
failure to the caller: the file moves to the `<path>.bak` backup name
(overwriting any prior backup) when the rename succeeds, recovery
continues silently without a backup when it fails, the in-memory
collection is reset to empty, and a fresh valid empty store is persisted
at the path. -/
theorem load_recovery_backup_reset (fs : JsonFS) (d : JsonDoc)
    (renameOk : Bool) (nm : List Char)
    (hmain : fs.main = some d) (hbad : jsonParse d = none) :
    load_json fs renameOk =
      ([], { main := some (jsonDump []),
             bak := if renameOk then some d else fs.bak }) ∧
    jsonParse (jsonDump []) = some [] ∧
    bakName nm = nm ++ ['.', 'b', 'a', 'k'] := by
  refine ⟨?_, rfl, bakName_eq nm⟩
  unfold load_json
  rw [hmain]
  dsimp only
  rw [hbad]
  cases renameOk <;> rfl

theorem load_recovery_backup_reset_witness :
    load_json { main := some JsonDoc.invalid, bak := none } true =
      ([], { main := some (jsonDump []),
             bak := if true then some JsonDoc.invalid else none }) ∧
    jsonParse (jsonDump []) = some [] ∧
    bakName ['a', '.', 'j', 's', 'o', 'n']
      = ['a', '.', 'j', 's', 'o', 'n'] ++ ['.', 'b', 'a', 'k'] :=
  load_recovery_backup_reset { main := some JsonDoc.invalid, bak := none }
    JsonDoc.invalid true ['a', '.', 'j', 's', 'o', 'n'] rfl rfl

/-- C3 counterexample: a collection holding a record with an empty id does
not survive a CSV round trip — the CSV load drops the row — so
save-then-load is not the identity for every collection in the CSV
format. -/
theorem csv_roundtrip_empty_id_cex :
    csvLoadFile (csvDump [[("id", ""), ("name", "x"), ("phone", ""),
        ("email", ""), ("notes", "")]]) = [] ∧
    ¬ List.Forall₂ fieldEq
      (csvLoadFile (csvDump [[("id", ""), ("name", "x"), ("phone", ""),
          ("email", ""), ("notes", "")]]))
      [[("id", ""), ("name", "x"), ("phone", ""), ("email", ""),
        ("notes", "")]] := by
  have h0 : csvLoadFile (csvDump [[("id", ""), ("name", "x"),
      ("phone", ""), ("email", ""), ("notes", "")]]) = ([] : List Record)
    := rfl
  refine ⟨h0, fun hf => ?_⟩
  rw [h0] at hf
  cases hf

/-- C3 (amended): save-then-load is the identity on the collection — in
record order and field-for-field — for the JSON format unconditionally
(the collection `csJ` here is arbitrary and unconstrained), and for the
CSV format whenever every record's id is non-empty (CSV load drops any
row with an empty or missing id). -/
theorem save_load_roundtrip (contacts csJ : List Record) (fs : JsonFS)
    (r : Bool) (h : ∀ c ∈ contacts, getValD c "id" "" ≠ "")
    (hfs : fs.main = some (jsonDump csJ)) :
    load_json fs r = (csJ, fs) ∧
    List.Forall₂ fieldEq (csvLoadFile (csvDump contacts)) contacts := by
  constructor
  · unfold load_json
    rw [hfs]
    rfl
  · exact csv_roundtrip_forall contacts h

theorem save_load_roundtrip_witness :
    load_json { main := some (jsonDump [[("id", "")], []]),
                bak := none } true =
      ([[("id", "")], []],
       { main := some (jsonDump [[("id", "")], []]), bak := none }) ∧
    List.Forall₂ fieldEq
      (csvLoadFile (csvDump [[("id", "1"), ("name", "A"), ("phone", ""),
          ("email", ""), ("notes", "")]]))
      [[("id", "1"), ("name", "A"), ("phone", ""), ("email", ""),
        ("notes", "")]] :=
  save_load_roundtrip
    [[("id", "1"), ("name", "A"), ("phone", ""), ("email", ""),
      ("notes", "")]]
    [[("id", "")], []] _ true (by decide) rfl

/-- C4 counterexample: on the collection loaded verbatim from the JSON
array `[{}]` — a valid array whose one record has no fields —
`find_by_id` raises `KeyError` from `c['id']` (kunal.py:126) instead of
returning an absent result. -/
theorem find_by_id_keyerror_cex :
    jsonParse (JsonDoc.val (JsonVal.arr [([] : Record)])) =
      some [([] : Record)] ∧
    find_by_id [([] : Record)] "x" = .error PyEx.keyError :=
  ⟨rfl, rfl⟩

/-- C4 (amended): provided every record carries an `"id"` key (as all
records created by `add_contact` or loaded from CSV do), `find_by_id`
never raises and returns the first record whose id equals the argument,
or an absent result; a record without an `"id"` key makes the scan raise
`KeyError` when it is reached. -/
theorem find_by_id_first_match (contacts : List Record) (i : String)
    (hids : ∀ r ∈ contacts, (getVal r "id").isSome) :
    find_by_id contacts i =
      .ok (contacts.find? (fun c => getVal c "id" == some i)) :=
  find_by_id_eq_find? contacts i hids

theorem find_by_id_first_match_witness :
    find_by_id [[("id", "1"), ("name", "A")], [("id", "2")]] "2" =
      .ok ([[("id", "1"), ("name", "A")], [("id", "2")]].find?
        (fun c => getVal c "id" == some "2")) :=
  find_by_id_first_match [[("id", "1"), ("name", "A")], [("id", "2")]]
    "2" (by decide)

/-- C8: CSV load keeps exactly the rows whose id cell is present and
non-empty (in order), normalizes every kept row to exactly the five known
fields — substituting the empty string for a missing column — and an
empty file yields no records. -/
theorem csv_load_filter_normalize (header : List String)
    (rows : List (List String)) (row : List String) (k : String)
    (hk : k ∈ DEFAULT_FIELDS) (hmiss : rowVal header row k = none) :
    csvLoadFile (header :: rows) =
      (rows.filter (keepRow header)).map (normalizeRow header) ∧
    recKeys (normalizeRow header row) = DEFAULT_FIELDS ∧
    getVal (normalizeRow header row) k = some "" ∧
    csvLoadFile [] = [] := by
  refine ⟨?_, recKeys_normalizeRow header row, ?_, rfl⟩
  · simp only [csvLoadFile]
    exact csvLoadRows_eq_filter_map header rows
  · rw [getVal_normalizeRow header row k hk, hmiss]
    rfl

theorem csv_load_filter_normalize_witness :
    csvLoadFile [["id", "name"], ["1", "a"], ["", "b"]] =
      ([["1", "a"], ["", "b"]].filter (keepRow ["id", "name"])).map
        (normalizeRow ["id", "name"]) ∧
    recKeys (normalizeRow ["id", "name"] ["1", "a"]) = DEFAULT_FIELDS ∧
    getVal (normalizeRow ["id", "name"] ["1", "a"]) "phone" = some "" ∧
    csvLoadFile [] = [] :=
  csv_load_filter_normalize ["id", "name"] [["1", "a"], ["", "b"]]
    ["1", "a"] "phone" (by decide) rfl

/-- C9: for every path string, `_detect_filetype` returns `"csv"` exactly
when the path's extension compares case-insensitively equal to `".csv"`,
and every other path yields `"json"`; the result is a pure function of the
path string. -/
theorem detect_filetype_csv_iff (p : String) :
    (detect_filetype p = "csv" ↔ lowerStr (pySuffix p) = ".csv") ∧
    (detect_filetype p ≠ "csv" → detect_filetype p = "json") := by
  unfold detect_filetype
  dsimp only
  split_ifs with hj hc
  · refine ⟨⟨fun h => absurd h (by decide), fun h => ?_⟩, fun _ => rfl⟩
    rw [hj] at h
    exact absurd h (by decide)
  · exact ⟨⟨fun _ => hc, fun _ => rfl⟩, fun h => absurd rfl h⟩
  · exact ⟨⟨fun h => absurd h (by decide), fun h => absurd h hc⟩,
      fun _ => rfl⟩

/-- C5 counterexample: on a collection with duplicate ids (loadable
verbatim from a JSON array), `delete` removes every matching record — the
comprehension of kunal.py:183 filters all of them — not exactly one. -/
theorem delete_duplicate_ids_cex :
    delete_contacts [[("id", "1"), ("name", "a")],
      [("id", "1"), ("name", "b")]] "1" = .ok (true, []) ∧
    ([[("id", "1"), ("name", "a")], [("id", "1"), ("name", "b")]] :
      List Record).length = 2 :=
  ⟨rfl, rfl⟩

/-- C5 (amended): on a collection whose records all carry an `"id"` key
with pairwise distinct ids, `delete` of an absent id returns `false` and
leaves the book — collection and file — unchanged, and `delete` of a
present id returns `true`, removes exactly the first (hence only) matching
record keeping the rest in order, and persists the result. -/
theorem delete_spec (b : Book) (i : String)
    (hids : ∀ r ∈ b.contacts, (getVal r "id").isSome)
    (hnd : (b.contacts.map (fun r => getVal r "id")).Nodup) :
    Book.delete b i = .ok
      (b.contacts.any (fun c => getVal c "id" == some i),
       if b.contacts.any (fun c => getVal c "id" == some i) then
         { b with
           contacts :=
             b.contacts.eraseP (fun c => getVal c "id" == some i),
           file := saveContent b.ft
             (b.contacts.eraseP (fun c => getVal c "id" == some i)) }
       else b) := by
  unfold Book.delete delete_contacts
  rw [find_by_id_eq_find? _ _ hids]
  cases hfind : b.contacts.find? (fun c => getVal c "id" == some i) with
  | none =>
    have hany : b.contacts.any (fun c => getVal c "id" == some i)
        = false := by
      rw [List.any_eq_false]
      intro c hc
      have := List.find?_eq_none.mp hfind c hc
      simpa using this
    rw [hany]
    rfl
  | some c₀ =>
    have hp := List.find?_some hfind
    have hany : b.contacts.any (fun c => getVal c "id" == some i)
        = true :=
      List.any_eq_true.mpr ⟨c₀, List.mem_of_find?_eq_some hfind, hp⟩
    rw [filterNotId_eq_filter _ _ hids,
      filter_not_eq_eraseP _ _ (countP_id_le_one b.contacts i hnd), hany]
    rfl

theorem delete_spec_witness :
    Book.delete sampleBook "1" = .ok
      (sampleBook.contacts.any (fun c => getVal c "id" == some "1"),
       if sampleBook.contacts.any (fun c => getVal c "id" == some "1") then
         { sampleBook with
           contacts :=
             sampleBook.contacts.eraseP
               (fun c => getVal c "id" == some "1"),
           file := saveContent sampleBook.ft
             (sampleBook.contacts.eraseP
               (fun c => getVal c "id" == some "1")) }
       else sampleBook) :=
  delete_spec sampleBook "1" (by decide) (by decide)

/-- C6 counterexample: load performs no uniqueness validation — a JSON
array with two records sharing an id loads verbatim into a collection
whose ids are not pairwise distinct, so the uniqueness invariant is not
established by load. -/
theorem load_duplicate_ids_cex :
    (load_json { main := some (JsonDoc.val (JsonVal.arr
        [[("id", "1")], [("id", "1")]])), bak := none } true).1 =
      [[("id", "1")], [("id", "1")]] ∧
    ¬ ((load_json { main := some (JsonDoc.val (JsonVal.arr
        [[("id", "1")], [("id", "1")]])), bak := none } true).1.map
        (fun r => getVal r "id")).Nodup :=
  ⟨rfl, by decide⟩

/-- C6 (amended): the operations preserve the id invariant even though
load does not establish it: `update` keeps every record's id exactly as it
was (ids are immutable through this path), so uniqueness is preserved;
`delete` keeps a sub-collection, preserving uniqueness; and `add` with a
freshly generated id not already present preserves uniqueness. -/
theorem id_uniqueness_preservation (b : Book) (i : String)
    (f : String → Option String) (flagU : Bool) (csU : List Record)
    (flagD : Bool) (bD : Book) (newId nm ph em no : String)
    (hnd : (b.contacts.map (fun r => getVal r "id")).Nodup)
    (hU : update_contacts b.contacts i f = .ok (flagU, csU))
    (hD : Book.delete b i = .ok (flagD, bD))
    (hfresh : some newId ∉ b.contacts.map (fun r => getVal r "id")) :
    csU.map (fun r => getVal r "id") =
      b.contacts.map (fun r => getVal r "id") ∧
    (csU.map (fun r => getVal r "id")).Nodup ∧
    (bD.contacts.map (fun r => getVal r "id")).Nodup ∧
    (((Book.add_contact b newId nm ph em no).2.contacts.map
        (fun r => getVal r "id")).Nodup) := by
  obtain ⟨_, hmap, _⟩ := update_contacts_parts b.contacts i f flagU csU hU
  have hDc := book_delete_contacts b i flagD bD hD
  have hsub := delete_contacts_sublist b.contacts i flagD bD.contacts hDc
  refine ⟨hmap, by rw [hmap]; exact hnd, hnd.sublist (hsub.map _), ?_⟩
  have hadd : (Book.add_contact b newId nm ph em no).2.contacts
      = b.contacts ++
        ([[("id", newId), ("name", strip nm), ("phone", strip ph),
          ("email", strip em), ("notes", strip no)]] : List Record) := rfl
  rw [hadd, List.map_append, List.nodup_append]
  refine ⟨hnd, by simp, ?_⟩
  intro a ha hb
  simp only [List.map_cons, List.map_nil, List.mem_singleton] at hb
  rw [show getVal [("id", newId), ("name", strip nm), ("phone", strip ph),
    ("email", strip em), ("notes", strip no)] "id" = some newId from rfl]
    at hb
  exact hfresh (hb ▸ ha)

theorem id_uniqueness_preservation_witness :
    sampleContacts.map (fun r => getVal r "id") =
      sampleBook.contacts.map (fun r => getVal r "id") ∧
    (sampleContacts.map (fun r => getVal r "id")).Nodup ∧
    (({ ft := Filetype.json,
        contacts := [[("id", "1"), ("name", "a"), ("phone", ""),
          ("email", ""), ("notes", "")]],
        file := saveContent Filetype.json
          [[("id", "1"), ("name", "a"), ("phone", ""), ("email", ""),
            ("notes", "")]] } : Book).contacts.map
        (fun r => getVal r "id")).Nodup ∧
    (((Book.add_contact sampleBook "3" "c" "" "" "").2.contacts.map
        (fun r => getVal r "id")).Nodup) :=
  id_uniqueness_preservation sampleBook "2" (fun _ => none) false
    sampleContacts true
    { ft := Filetype.json,
      contacts := [[("id", "1"), ("name", "a"), ("phone", ""),
        ("email", ""), ("notes", "")]],
      file := saveContent Filetype.json
        [[("id", "1"), ("name", "a"), ("phone", ""), ("email", ""),
          ("notes", "")]] }
    "3" "c" "" "" "" (by decide) rfl rfl (by decide)

/-- C7 counterexample: with a field-less record ahead of the matching one
(loadable verbatim from JSON), `update` raises `KeyError` out of
`find_by_id` even though a record with the requested id and a differing
supplied value are present, so it neither returns true nor persists. -/
theorem update_keyerror_cex :
    update_contacts [([] : Record), [("id", "1"), ("name", "a")]] "1"
      (fun k => if k = "name" then some "b" else none) =
      .error PyEx.keyError ∧
    getVal [("id", "1"), ("name", "a")] "id" = some "1" :=
  ⟨rfl, rfl⟩

/-- C7 (amended): when every record carries an `"id"` key and a record
with the given id exists, `update` returns true — and persists the full
collection — exactly when one of the four mutable fields is supplied
non-absent with a value that differs, after trimming, from the record's
current value; otherwise it returns false and writes nothing, and in
either case no record's id changes even if `"id"` is supplied. -/
theorem update_changed_iff (b : Book) (i : String)
    (f : String → Option String) (c₀ : Record) (flag : Bool)
    (cs' : List Record)
    (hids : ∀ r ∈ b.contacts, (getVal r "id").isSome)
    (hfind : b.contacts.find? (fun c => getVal c "id" == some i) = some c₀)
    (hU : update_contacts b.contacts i f = .ok (flag, cs')) :
    flag = MUTABLE_FIELDS.any (fieldChanged c₀ f) ∧
    Book.update b i f = .ok (flag,
      if flag then
        { b with contacts := cs', file := saveContent b.ft cs' }
      else b) ∧
    cs'.map (fun r => getVal r "id") =
      b.contacts.map (fun r => getVal r "id") := by
  obtain ⟨pre, post, heq, hupd⟩ :=
    update_contacts_found b.contacts i f c₀ hids hfind
  rw [hU] at hupd
  simp only [Except.ok.injEq, Prod.mk.injEq] at hupd
  obtain ⟨hflag, hcs⟩ := hupd
  have hfst : flag = MUTABLE_FIELDS.any (fieldChanged c₀ f) := by
    rw [hflag, applyFields_snd]
  refine ⟨hfst, ?_, ?_⟩
  · unfold Book.update
    rw [hU]
    simp only [Except.map]
    cases hfl : flag with
    | true => simp [hfl]
    | false =>
      have h2 : (applyFields c₀ f).2 = false := by
        rw [← hflag]
        exact hfl
      have hnc := applyLoop_noChange f DEFAULT_FIELDS c₀ false h2
      have hcs2 : cs' = b.contacts := by
        rw [hcs, show (applyFields c₀ f).1 = c₀ from hnc.1, ← heq]
      rw [hcs2]
  · rw [hcs, heq]
    simp [List.map_append, applyFields, applyLoop_getVal_id]

theorem update_changed_iff_witness :
    true = MUTABLE_FIELDS.any (fieldChanged
      [("id", "1"), ("name", "a"), ("phone", ""), ("email", ""),
        ("notes", "")]
      (fun k => if k = "name" then some "Z" else none)) ∧
    Book.update sampleBook "1"
      (fun k => if k = "name" then some "Z" else none) = .ok (true,
      if true then
        { sampleBook with
          contacts := [[("id", "1"), ("name", "Z"), ("phone", ""),
            ("email", ""), ("notes", "")],
            [("id", "2"), ("name", "b"), ("phone", ""), ("email", ""),
              ("notes", "")]],
          file := saveContent sampleBook.ft
            [[("id", "1"), ("name", "Z"), ("phone", ""), ("email", ""),
              ("notes", "")],
              [("id", "2"), ("name", "b"), ("phone", ""), ("email", ""),
                ("notes", "")]] }
      else sampleBook) ∧
    ([[("id", "1"), ("name", "Z"), ("phone", ""), ("email", ""),
        ("notes", "")],
      [("id", "2"), ("name", "b"), ("phone", ""), ("email", ""),
        ("notes", "")]] : List Record).map (fun r => getVal r "id") =
      sampleBook.contacts.map (fun r => getVal r "id") :=
  update_changed_iff sampleBook "1"
    (fun k => if k = "name" then some "Z" else none)
    [("id", "1"), ("name", "a"), ("phone", ""), ("email", ""),
      ("notes", "")] true
    [[("id", "1"), ("name", "Z"), ("phone", ""), ("email", ""),
      ("notes", "")],
      [("id", "2"), ("name", "b"), ("phone", ""), ("email", ""),
        ("notes", "")]]
    (by decide) rfl rfl

/-- C10: whatever id and field mapping it is given, a non-raising `update`
never changes the length of the collection or the order and identity of
the stored ids, and every record at a position other than that of the
first id match is left entirely unchanged. -/
theorem update_frame (contacts : List Record) (i : String)
    (f : String → Option String) (flag : Bool) (cs' : List Record)
    (j : Nat) (h : update_contacts contacts i f = .ok (flag, cs'))
    (hj : j ≠ idxOfId contacts i) :
    cs'.length = contacts.length ∧
    cs'.map (fun r => getVal r "id") =
      contacts.map (fun r => getVal r "id") ∧
    cs'.get? j = contacts.get? j := by
  obtain ⟨h1, h2, h3⟩ := update_contacts_parts contacts i f flag cs' h
  exact ⟨h1, h2, h3 j hj⟩

theorem update_frame_witness :
    ([[("id", "1"), ("name", "a"), ("phone", ""), ("email", ""),
        ("notes", "hi")],
      [("id", "2"), ("name", "b"), ("phone", ""), ("email", ""),
        ("notes", "")]] : List Record).length = sampleContacts.length ∧
    ([[("id", "1"), ("name", "a"), ("phone", ""), ("email", ""),
        ("notes", "hi")],
      [("id", "2"), ("name", "b"), ("phone", ""), ("email", ""),
        ("notes", "")]] : List Record).map (fun r => getVal r "id") =
      sampleContacts.map (fun r => getVal r "id") ∧
    ([[("id", "1"), ("name", "a"), ("phone", ""), ("email", ""),
        ("notes", "hi")],
      [("id", "2"), ("name", "b"), ("phone", ""), ("email", ""),
        ("notes", "")]] : List Record).get? 1 = sampleContacts.get? 1 :=
  update_frame sampleContacts "1"
    (fun k => if k = "notes" then some " hi " else none) true
    [[("id", "1"), ("name", "a"), ("phone", ""), ("email", ""),
      ("notes", "hi")],
      [("id", "2"), ("name", "b"), ("phone", ""), ("email", ""),
        ("notes", "")]]
    1 rfl (by decide)
